import Mathlib

set_option maxRecDepth 16384

/-!
Shallow embedding of `src/main.rs` of nbari/rust-opentelemetry: a warp HTTP
service with three handlers (`hello`, `query`, `health`), a header-logging
filter, and a dual-stack listener.  Machine strings are modelled as Lean
`String`/`List Char`, raw header bytes as `List Nat` (each < 256), SQL numeric
values (`BigDecimal`) as `ℚ`, and fallible effects (`reqwest`, `sqlx`) as
`Except` inputs to the handler bodies.  A Rust `unwrap`/`expect` on a failure
is modelled by the `HandlerResult.panic` constructor.
-/

namespace RustOtel

/-! ### UTF-8 lossy decoding (`String::from_utf8_lossy`, main.rs line 130) -/

/-- The Unicode replacement character U+FFFD emitted for invalid sequences. -/
def replacementChar : Char := Char.ofNat 0xFFFD

/-- State of the UTF-8 decoding automaton in the middle of a multi-byte
sequence: how many continuation bytes are still needed, the accumulated
scalar value, and the admissible range for the next byte (the narrowed
first-continuation ranges exclude overlongs, surrogates and values above
U+10FFFF, exactly as `core::str` validation does). -/
structure Utf8State where
  need : Nat
  acc : Nat
  lo : Nat
  hi : Nat
deriving DecidableEq

/-- Handle one byte in the initial state: an ASCII byte is emitted, a lead
byte opens a multi-byte sequence, anything else is invalid and is replaced
by U+FFFD. -/
def utf8Start (b : Nat) : List Char × Option Utf8State :=
  if b < 0x80 then ([Char.ofNat b], none)
  else if decide (0xC2 ≤ b ∧ b ≤ 0xDF) then ([], some ⟨1, b - 0xC0, 0x80, 0xBF⟩)
  else if b = 0xE0 then ([], some ⟨2, 0, 0xA0, 0xBF⟩)
  else if decide (0xE1 ≤ b ∧ b ≤ 0xEC) then ([], some ⟨2, b - 0xE0, 0x80, 0xBF⟩)
  else if b = 0xED then ([], some ⟨2, 0xD, 0x80, 0x9F⟩)
  else if decide (0xEE ≤ b ∧ b ≤ 0xEF) then ([], some ⟨2, b - 0xE0, 0x80, 0xBF⟩)
  else if b = 0xF0 then ([], some ⟨3, 0, 0x90, 0xBF⟩)
  else if decide (0xF1 ≤ b ∧ b ≤ 0xF3) then ([], some ⟨3, b - 0xF0, 0x80, 0xBF⟩)
  else if b = 0xF4 then ([], some ⟨3, 4, 0x80, 0x8F⟩)
  else ([replacementChar], none)

/-- Handle one byte in any state.  An admissible continuation byte extends
the current sequence (completing it when it was the last one); an
inadmissible byte ends the broken sequence with U+FFFD (maximal-subpart
substitution) and is then reconsidered from the initial state. -/
def utf8Step (st : Option Utf8State) (b : Nat) : List Char × Option Utf8State :=
  match st with
  | none => utf8Start b
  | some s =>
    if decide (s.lo ≤ b ∧ b ≤ s.hi) then
      let acc := s.acc * 64 + (b - 0x80)
      if s.need = 1 then ([Char.ofNat acc], none)
      else ([], some ⟨s.need - 1, acc, 0x80, 0xBF⟩)
    else
      let r := utf8Start b
      (replacementChar :: r.1, r.2)

/-- A sequence left incomplete at end of input decodes to U+FFFD. -/
def utf8Flush (st : Option Utf8State) : List Char :=
  match st with
  | none => []
  | some _ => [replacementChar]

/-- Run the automaton over the whole byte sequence. -/
def utf8Run (st : Option Utf8State) : List Nat → List Char
  | [] => utf8Flush st
  | b :: rest =>
    let r := utf8Step st b
    r.1 ++ utf8Run r.2 rest

/-- Lossy UTF-8 decoding of a byte sequence into characters; total. -/
def utf8LossyChars (l : List Nat) : List Char := utf8Run none l

/-- Model of `String::from_utf8_lossy(v.as_bytes()).into_owned()`. -/
def utf8Lossy (bytes : List Nat) : String := String.mk (utf8LossyChars bytes)

/-! ### The per-request header map (`log_headers`, main.rs lines 127-132)

`HashMap<String, String>` is modelled as an association list observed
through `mapLookup`; `entry(k).or_insert(v)` inserts only when the key is
absent. -/

/-- `header_hashmap.entry(k).or_insert(v)`: insert `(k, v)` only if `k` is
not already a key of `m`. -/
def insertIfAbsent (m : List (String × String)) (k v : String) :
    List (String × String) :=
  if m.any (fun p => p.1 == k) then m else m ++ [(k, v)]

/-- The loop over `headers.iter()`: keys are the header names as strings,
values are the lossily decoded header bytes. -/
def buildHeaderMap (headers : List (String × List Nat)) :
    List (String × String) :=
  headers.foldl (fun m kv => insertIfAbsent m kv.1 (utf8Lossy kv.2)) []

/-- Map lookup (the observation of the modelled `HashMap`). -/
def mapLookup (m : List (String × String)) (k : String) : Option String :=
  (m.find? (fun p => p.1 == k)).map (fun p => p.2)

/-! ### JSON serialization (`serde_json::to_string`, main.rs line 139) -/

/-- Lower-case hexadecimal digit. -/
def hexDigitChar (n : Nat) : Char :=
  if n < 10 then Char.ofNat (n + 48) else Char.ofNat (n + 87)

/-- serde_json string escaping: quote, backslash, and C0 control characters
(short escapes for BS, TAB, LF, FF, CR; `\u00XX` otherwise). -/
def jsonEscapeChar (c : Char) : List Char :=
  if c = '"' then ['\\', '"']
  else if c = '\\' then ['\\', '\\']
  else if decide (0x20 ≤ c.toNat) then [c]
  else if c.toNat = 0x08 then ['\\', 'b']
  else if c = '\t' then ['\\', 't']
  else if c = '\n' then ['\\', 'n']
  else if c.toNat = 0x0C then ['\\', 'f']
  else if c = '\r' then ['\\', 'r']
  else ['\\', 'u', '0', '0', hexDigitChar (c.toNat / 16), hexDigitChar (c.toNat % 16)]

/-- A JSON string literal. -/
def jsonString (s : String) : String :=
  String.mk ('"' :: (s.data.map jsonEscapeChar).flatten ++ ['"'])

/-- Comma-separated concatenation. -/
def commaSep (l : List String) : String :=
  match l with
  | [] => ""
  | [s] => s
  | s :: rest => s ++ "," ++ commaSep rest

/-- Rendering of a string-to-string map as a JSON object. -/
def jsonObject (m : List (String × String)) : String :=
  "\x7b" ++ commaSep (m.map (fun p => jsonString p.1 ++ ":" ++ jsonString p.2)) ++ "\x7d"

/-- `serde_json::to_string(&header_hashmap)`: serialization of a map with
string keys and string values; the `Err` case of the `Result` is
unreachable for this type, which the model makes explicit. -/
def serdeToString (m : List (String × String)) : Except String String :=
  Except.ok (jsonObject m)

/-! ### Handler outcomes -/

/-- Outcome of running a handler body: a panic (an `unwrap`/`expect` hit a
failure, aborting the request task) or a value. -/
inductive HandlerResult (α : Type) where
  | panic (msg : String)
  | ok (val : α)
deriving DecidableEq

/-- Whether the outcome is a panic. -/
def HandlerResult.isPanic {α : Type} : HandlerResult α → Bool
  | .panic _ => true
  | .ok _ => false

/-- Result of the header-logging filter body: the built map and the emitted
JSON log line. -/
structure LogOutput where
  map : List (String × String)
  line : String
deriving DecidableEq

/-- The `log_headers` filter body (main.rs lines 125-142): build the header
map, then serialize it (`unwrap` panics on a serialization error) and emit
the line.  The span around it is modelled in `middlewareEvents`. -/
def logHeaders (headers : List (String × List Nat)) : HandlerResult LogOutput :=
  let m := buildHeaderMap headers
  match serdeToString m with
  | .ok j => .ok ⟨m, j⟩
  | .error e => .panic e

/-! ### The greeting handler (`hello`, main.rs lines 24-36 and 147-156) -/

/-- The fixed HTML template (main.rs lines 24-36, a raw string). -/
def HTML : String :=
  "\n<!DOCTYPE html>\n<html>\n<head>\n<style>\n    body \x7b\n        background-color: lightgreen;\n    \x7d\n</style>\n    <body>\n    Hi: \x7b\x7d\n    </body>\n</html>"

/-- Split a character list at every nonoverlapping left-to-right occurrence
of the two-character pattern `c1 c2` (the only pattern shape the source
passes to `str::replace`). -/
def splitOnPair (c1 c2 : Char) : List Char → List (List Char)
  | [] => [[]]
  | [c] => [[c]]
  | a :: b :: rest =>
    if a = c1 ∧ b = c2 then [] :: splitOnPair c1 c2 rest
    else
      match splitOnPair c1 c2 (b :: rest) with
      | [] => [[a]]
      | g :: gs => (a :: g) :: gs

/-- Rejoin split segments with the replacement in between. -/
def joinWith (rep : List Char) : List (List Char) → List Char
  | [] => []
  | [g] => g
  | g :: gs => g ++ rep ++ joinWith rep gs

/-- Model of Rust `str::replace` (split on the pattern, rejoin with the
replacement), specialized to a two-character pattern. -/
def replacePair (c1 c2 : Char) (s rep : List Char) : List Char :=
  joinWith rep (splitOnPair c1 c2 s)

/-- `HTML.replace("\x7b\x7d", origin)` of main.rs line 154. -/
def strReplace (s : String) (c1 c2 : Char) (rep : String) : String :=
  String.mk (replacePair c1 c2 s.data rep.data)

/-- A reply as produced by `warp::reply::html` / the response builder. -/
structure HtmlReply where
  contentType : String
  body : String
deriving DecidableEq

/-- The `hello` handler body (main.rs lines 147-156).  `ipResp` is the
outcome of `reqwest::get("https://httpbin.org/ip").await` chained with
`.json::<HashMap<String, String>>().await`: an error from either step is
`Except.error` and hits an `unwrap`; on success the handler unwraps the
`origin` field and substitutes it into the template. -/
def hello (ipResp : Except String (List (String × String))) :
    HandlerResult HtmlReply :=
  match ipResp with
  | .error e => .panic e
  | .ok resp =>
    match mapLookup resp "origin" with
    | none => .panic "called Option unwrap on a None value"
    | some origin => .ok ⟨"text/html", strReplace HTML '\x7b' '\x7d' origin⟩

/-! ### The query handler (`query`, main.rs lines 158-189) -/

/-- A row of the external `bookings` table: `book_ref` (text), `book_date`
(timestamp with time zone, modelled as epoch microseconds), `total_amount`
(arbitrary-precision decimal, modelled as an exact rational). -/
structure Row where
  book_ref : String
  book_date : Int
  total_amount : ℚ
deriving DecidableEq

/-- The serialized record type (main.rs lines 158-163). -/
structure Bookings where
  id : String
  date : Int
  total : ℚ
deriving DecidableEq

/-- The row-to-record mapping of main.rs lines 181-185. -/
def toBooking (r : Row) : Bookings :=
  ⟨r.book_ref, r.book_date, r.total_amount⟩

/-- The `ORDER BY total_amount desc` comparison. -/
def byTotalDesc (a b : Row) : Prop := b.total_amount ≤ a.total_amount

instance : DecidableRel byTotalDesc :=
  fun a b => inferInstanceAs (Decidable (b.total_amount ≤ a.total_amount))

/-- Semantics of the SQL text of main.rs lines 168-173:
`SELECT * FROM bookings ORDER BY total_amount desc LIMIT 10`.  The order
among rows of equal `total_amount` is implementation-defined in the
database; it is modelled here by a stable sort. -/
def sqlRows (table : List Row) : List Row :=
  (List.insertionSort byTotalDesc table).take 10

/-- A reply as produced by `warp::reply::json`. -/
structure JsonReply where
  records : List Bookings
  contentType : String
deriving DecidableEq

/-- The `query` handler body (main.rs lines 166-189).  `dbResult` is the
outcome of `fetch_all(&db).await`; an error hits `.expect("some error")`,
a success is mapped row by row into `Bookings` records and serialized. -/
def query (dbResult : Except String (List Row)) : HandlerResult JsonReply :=
  match dbResult with
  | .error _ => .panic "some error"
  | .ok rows => .ok ⟨rows.map toBooking, "application/json"⟩

/-- The query handler against a database state in which the SQL executes
successfully over `table`. -/
def querySem (table : List Row) : HandlerResult JsonReply :=
  query (.ok (sqlRows table))

/-! ### The health handler (`health`, main.rs lines 42-46 and 193-209) -/

/-- `GIT_COMMIT_HASH` (main.rs lines 42-46): the build-time commit hash when
available, otherwise the placeholder sentinel. -/
def gitCommitHash (build : Option String) : String :=
  match build with
  | some h => h
  | none => ":-("

/-- The short-hash computation of main.rs lines 194-198: the first seven
characters when the hash is longer than seven, otherwise the empty
string. -/
def shortHash (h : String) : String :=
  if h.length > 7 then String.mk (h.data.take 7) else ""

/-- The health response: the builder's default status, the `X-App` header
and the body (main.rs lines 199-209). -/
structure HealthResponse where
  status : Nat
  xApp : String
  body : String
deriving DecidableEq

/-- The `health` handler body, parameterized by the crate name, the crate
version and the optional build commit hash. -/
def health (name version : String) (build : Option String) : HealthResponse :=
  ⟨200,
   name ++ ":" ++ version ++ ":" ++ shortHash (gitCommitHash build),
   gitCommitHash build⟩

/-! ### Routing (main.rs lines 98-107)

`routes = health.or(query).or(hello)` with
`health = warp::any().and(warp::path("health"))`,
`query = warp::get().and(warp::path("query"))`,
`hello = warp::get().and(log_headers())`.  `warp::path` matches one path
segment without requiring the path to end there, and `or` tries the left
filter first. -/

/-- HTTP request methods. -/
inductive Method where
  | GET | POST | PUT | DELETE | HEAD | OPTIONS | PATCH
deriving DecidableEq

/-- An inbound request: method, path split into segments, and raw headers
(name, value bytes) in iteration order of the header map. -/
structure Request where
  method : Method
  segments : List String
  headers : List (String × List Nat)

/-- Which terminal filter accepted the request. -/
inductive RouteChoice where
  | health | query | hello | rejected
deriving DecidableEq

/-- Observable steps of handling a request, in execution order. -/
inductive Event where
  | spanStart (name : String)
  | logEmit (line : String)
  | spanEnd (name : String)
  | helloBody
  | queryBody
  | healthBody
deriving DecidableEq

/-- The events produced by the `log_headers` filter, in source order
(main.rs lines 133-141): the child span is started, the serialized map is
printed, the span is ended.  A serialization panic would abort after the
span start. -/
def middlewareEvents (headers : List (String × List Nat)) : List Event :=
  match logHeaders headers with
  | .ok out => [.spanStart "log headers", .logEmit out.line, .spanEnd "log headers"]
  | .panic _ => [.spanStart "log headers"]

/-- The first path segment, matched by `warp::path`. -/
def firstSegment (r : Request) : Option String := r.segments.head?

/-- Route dispatch: the `or` chain of main.rs line 107, trying `health`,
then `query`, then `hello`.  The returned event list contains the filter
side effects and the handler body marker in execution order. -/
def dispatch (r : Request) : List Event × RouteChoice :=
  if firstSegment r = some "health" then ([.healthBody], .health)
  else if r.method = .GET ∧ firstSegment r = some "query" then ([.queryBody], .query)
  else if r.method = .GET then (middlewareEvents r.headers ++ [.helloBody], .hello)
  else ([], .rejected)

/-- The handler a request is routed to. -/
def routeOf (r : Request) : RouteChoice := (dispatch r).2

/-- The events a request produces. -/
def eventsOf (r : Request) : List Event := (dispatch r).1

/-! ### Listen address and port (main.rs lines 59-71 and 110-116) -/

/-- An IP address: four octets, or eight 16-bit groups. -/
inductive IpAddr where
  | v4 (a b c d : Nat)
  | v6 (groups : List Nat)
deriving DecidableEq

/-- Split a character list on a separator character (like `str::split`). -/
def splitOnChar (sep : Char) (l : List Char) : List (List Char) :=
  match l with
  | [] => [[]]
  | c :: rest =>
    let r := splitOnChar sep rest
    if c = sep then [] :: r
    else
      match r with
      | [] => [[c]]
      | g :: gs => (c :: g) :: gs

/-- Split around the first occurrence of a double colon, if any. -/
def breakOnColonColon (l : List Char) : Option (List Char × List Char) :=
  match l with
  | [] => none
  | [_] => none
  | c1 :: c2 :: rest =>
    if c1 = ':' ∧ c2 = ':' then some ([], rest)
    else
      match breakOnColonColon (c2 :: rest) with
      | some (a, b) => some (c1 :: a, b)
      | none => none

/-- A hexadecimal digit character. -/
def isHexDigitChar (c : Char) : Bool :=
  c.isDigit || (decide ('a' ≤ c) && decide (c ≤ 'f')) ||
    (decide ('A' ≤ c) && decide (c ≤ 'F'))

/-- Value of a hexadecimal digit character. -/
def hexVal (c : Char) : Nat :=
  if c.isDigit then c.toNat - 48
  else if decide ('a' ≤ c) && decide (c ≤ 'f') then c.toNat - 87
  else c.toNat - 55

/-- Parse one 16-bit IPv6 group: one to four hexadecimal digits. -/
def parseHexGroup (g : List Char) : Option Nat :=
  if g.length = 0 then none
  else if g.length > 4 then none
  else if g.all isHexDigitChar then
    some (g.foldl (fun a c => a * 16 + hexVal c) 0)
  else none

/-- Parse one side of a `::`: the empty side contributes no groups. -/
def parseSide (side : List Char) : Option (List Nat) :=
  if side.isEmpty then some []
  else (splitOnChar ':' side).mapM parseHexGroup

/-- Model of `Ipv6Addr::from_str` (without the embedded-IPv4 and scope-id
forms, which the source never exercises): either eight colon-separated
groups, or two group lists around a single `::` abbreviating the elided
zero groups. -/
def ipv6Parse (s : List Char) : Option IpAddr :=
  match breakOnColonColon s with
  | none =>
    match (splitOnChar ':' s).mapM parseHexGroup with
    | some gs => if gs.length = 8 then some (.v6 gs) else none
    | none => none
  | some (l, r) =>
    if (breakOnColonColon r).isSome then none
    else
      match parseSide l, parseSide r with
      | some gl, some gr =>
        if gl.length + gr.length ≤ 7 then
          some (.v6 (gl ++ List.replicate (8 - (gl.length + gr.length)) 0 ++ gr))
        else none
      | _, _ => none

/-- Parse one decimal octet `0..=255` with no leading zeros. -/
def parseDecOctet (g : List Char) : Option Nat :=
  if g.length = 0 then none
  else if g.length > 3 then none
  else if g.all Char.isDigit then
    if g.length > 1 ∧ g.head? = some '0' then none
    else
      let v := g.foldl (fun a c => a * 10 + (c.toNat - 48)) 0
      if v ≤ 255 then some v else none
  else none

/-- Model of `Ipv4Addr::from_str`: four dot-separated decimal octets. -/
def ipv4Parse (s : List Char) : Option IpAddr :=
  match splitOnChar '.' s with
  | [a, b, c, d] =>
    match parseDecOctet a, parseDecOctet b, parseDecOctet c, parseDecOctet d with
    | some x, some y, some z, some w => some (.v4 x y z w)
    | _, _, _, _ => none
  | _ => none

/-- Model of `IpAddr::from_str`: IPv4 form first, then IPv6 form. -/
def ipAddrFromStr (s : String) : Option IpAddr :=
  match ipv4Parse s.data with
  | some a => some a
  | none => ipv6Parse s.data

/-- The listen-address selection of main.rs lines 110-113: parse the
literal `::0`, falling back to the IPv4 wildcard only if parsing fails. -/
def listenAddr : IpAddr :=
  match ipAddrFromStr "::0" with
  | some a => a
  | none => .v4 0 0 0 0

/-- The clap `--port` flag of main.rs lines 61-71: the parsed value when
supplied, `80` by default. -/
def resolvedPort (cli : Option Nat) : Nat :=
  match cli with
  | some p => p
  | none => 80

/-- The fate of the started server. -/
inductive ServeOutcome where
  | listening (addr : IpAddr) (port : Nat)
  | panicked
deriving DecidableEq

/-- Modelled from the spec: `warp::serve(routes).run((addr, port))` binds
the single chosen address; per spec section 6, a bind failure is a startup
failure that terminates the process (exit non-zero) rather than serving on
any other address. -/
def serve (addr : IpAddr) (port : Nat) (bindOk : Bool) : ServeOutcome :=
  if bindOk then .listening addr port else .panicked

/-- The listening behavior of `main`: address selection composed with the
bind, given the optional `--port` value and whether the bind succeeds. -/
def runServer (cliPort : Option Nat) (bindOk : Bool) : ServeOutcome :=
  serve listenAddr (resolvedPort cliPort) bindOk

/-! ### Helper lemmas -/

theorem mapLookup_eq_none (m : List (String × String)) (k : String) :
    mapLookup m k = none ↔ ∀ p ∈ m, p.1 ≠ k := by
  simp [mapLookup, List.find?_eq_none]

theorem mapLookup_insertIfAbsent (m : List (String × String)) (k a v : String) :
    mapLookup (insertIfAbsent m a v) k =
      match mapLookup m k with
      | some w => some w
      | none => if k = a then some v else none := by
  unfold insertIfAbsent
  cases ha : m.any (fun p => p.1 == a) with
  | true =>
    simp only [if_true]
    cases hm : mapLookup m k with
    | some w => simp [hm]
    | none =>
      have hka : k ≠ a := by
        intro hk
        subst hk
        rw [List.any_eq_true] at ha
        obtain ⟨p, hp, hpa⟩ := ha
        exact (mapLookup_eq_none m k).mp hm p hp (by simpa using hpa)
      simp [hm, hka]
  | false =>
    simp only [Bool.false_eq_true, if_false]
    cases hm : mapLookup m k with
    | some w =>
      obtain ⟨p, hp, hp2⟩ : ∃ p, List.find? (fun p => p.1 == k) m = some p ∧ p.2 = w := by
        simpa [mapLookup] using hm
      simp [mapLookup, List.find?_append, hp, Option.or, hp2]
    | none =>
      have hf : List.find? (fun p => p.1 == k) m = none := by
        simpa [mapLookup] using hm
      by_cases hk : k = a
      · subst hk
        simp [hm, mapLookup, List.find?_append, hf, Option.or, List.find?]
      · have hne : (a == k) = false := by simpa using Ne.symm hk
        simp [hm, mapLookup, List.find?_append, hf, Option.or, List.find?, hne, hk]

theorem mapLookup_build_aux (hs : List (String × List Nat))
    (m : List (String × String)) (k : String) :
    mapLookup (hs.foldl (fun m kv => insertIfAbsent m kv.1 (utf8Lossy kv.2)) m) k =
      match mapLookup m k with
      | some w => some w
      | none => (hs.find? (fun p => p.1 == k)).map (fun p => utf8Lossy p.2) := by
  induction hs generalizing m with
  | nil =>
    cases hm : mapLookup m k <;> simp [hm]
  | cons hd tl ih =>
    simp only [List.foldl_cons]
    rw [ih, mapLookup_insertIfAbsent]
    cases hm : mapLookup m k with
    | some w => simp
    | none =>
      by_cases hk : k = hd.1
      · subst hk
        simp [List.find?]
      · have : (hd.1 == k) = false := by simpa using Ne.symm hk
        simp [List.find?, this, hk]

/-! ### Claim theorems -/

/-- C1 counterexample: the claim says the short-commit segment is empty
exactly when the commit hash is shorter than 7 characters and otherwise
equals the first 7 characters; a hash of length exactly 7 refutes both
parts, since the code tests `len() > 7` and yields the empty string. -/
theorem C1_counterexample :
    shortHash "abcdefg" = "" ∧ ¬ ("abcdefg".length < 7) ∧
    String.mk ("abcdefg".data.take 7) = "abcdefg" := by
  refine ⟨by decide, by decide, by decide⟩

/-- C1 (amended): the short-commit segment of the `X-App` header equals the
first 7 characters of the build's commit hash when the hash is longer than
7 characters, and is the empty string exactly when the hash's length is at
most 7. -/
theorem C1_short_hash (h : String) :
    (7 < h.length → shortHash h = String.mk (h.data.take 7)) ∧
    (shortHash h = "" ↔ h.length ≤ 7) := by
  have hlen : h.length = h.data.length := rfl
  constructor
  · intro hl
    simp [shortHash, hl]
  · constructor
    · intro he
      by_contra hle
      push_neg at hle
      rw [shortHash, if_pos hle] at he
      have hdata : h.data.take 7 = [] := congrArg String.data he
      rcases List.take_eq_nil_iff.mp hdata with h7 | hnil
      · omega
      · rw [hlen, hnil] at hle
        simp at hle
    · intro hle
      have hn : ¬ (h.length > 7) := by omega
      simp [shortHash, hn]

/-- C1 witness: at a hash of length 8 the short segment is the 7-character
truncation, and at a hash of length 3 it is empty. -/
theorem C1_witness :
    shortHash "abcdefgh" = "abcdefg" ∧ shortHash "abc" = "" := by
  constructor
  · have h1 := (C1_short_hash "abcdefgh").1 (by decide)
    exact h1.trans (by decide)
  · exact (C1_short_hash "abc").2.mpr (by decide)

/-- C2 counterexample: for a request carrying the same header name twice
(values `1` then `2`), the map built by `log_headers` holds the first-seen
value `1`, not the last-seen value `2` as the claim states. -/
theorem C2_counterexample :
    mapLookup (buildHeaderMap [("x-dup", [49]), ("x-dup", [50])]) "x-dup" = some "1" ∧
    utf8Lossy [50] = "2" ∧
    mapLookup (buildHeaderMap [("x-dup", [49]), ("x-dup", [50])]) "x-dup" ≠ some "2" := by
  refine ⟨by decide, by decide, by decide⟩

/-- C2 (amended): the per-request header map resolves duplicate header keys
first-write-wins: for every header list and every name, the mapped value is
the value of the first entry with that name (lossily decoded), because
`entry(k).or_insert(v)` inserts only when the key is absent. -/
theorem C2_first_seen_wins (headers : List (String × List Nat)) (k : String) :
    mapLookup (buildHeaderMap headers) k =
      (headers.find? (fun p => p.1 == k)).map (fun p => utf8Lossy p.2) := by
  have h := mapLookup_build_aux headers [] k
  simpa [mapLookup] using h

/-- C4: the health handler never fails: for every request whose first path
segment is `health` — whatever the method — the router dispatches to the
health handler, and the health response has status 200, an `X-App` header
`name:version:shorthash`, and a body equal to the full commit hash string,
or to the placeholder sentinel `:-(` when no commit hash was available at
build time. -/
theorem C4_health (name version : String) (build : Option String)
    (req : Request) (hreq : firstSegment req = some "health") :
    routeOf req = .health ∧
    (health name version build).status = 200 ∧
    (health name version build).xApp =
      name ++ ":" ++ version ++ ":" ++ shortHash (gitCommitHash build) ∧
    (health name version build).body = gitCommitHash build ∧
    (build = none → (health name version build).body = ":-(") := by
  refine ⟨?_, rfl, rfl, rfl, ?_⟩
  · simp [routeOf, dispatch, hreq]
  · intro hb
    subst hb
    rfl

/-- C4 witness: a POST to `/health` with no build hash reaches the health
handler and answers the placeholder body. -/
theorem C4_witness :
    routeOf ⟨.POST, ["health"], []⟩ = .health ∧
    (health "demo" "0.1.0" none).status = 200 ∧
    (health "demo" "0.1.0" none).body = ":-(" := by
  have h := C4_health "demo" "0.1.0" none ⟨.POST, ["health"], []⟩ (by decide)
  exact ⟨h.1, h.2.1, h.2.2.2.2 rfl⟩

/-- The template text before the `\x7b\x7d` placeholder. -/
def htmlPre : String :=
  "\n<!DOCTYPE html>\n<html>\n<head>\n<style>\n    body \x7b\n        background-color: lightgreen;\n    \x7d\n</style>\n    <body>\n    Hi: "

/-- The template text after the `\x7b\x7d` placeholder. -/
def htmlPost : String := "\n    </body>\n</html>"

theorem html_split :
    splitOnPair '\x7b' '\x7d' HTML.data = [htmlPre.data, htmlPost.data] := by
  decide

/-- C5: every successful response of the greeting handler has content-type
`text/html` and a body equal to the fixed HTML template with the literal
placeholder replaced by the `origin` string returned by the IP-echo
service: the text before the placeholder, then the origin, then the text
after it. -/
theorem C5_hello (ipResp : Except String (List (String × String)))
    (r : HtmlReply) (h : hello ipResp = .ok r) :
    r.contentType = "text/html" ∧
    ∃ origin, mapLookup (ipResp.toOption.getD []) "origin" = some origin ∧
      r.body = String.mk (htmlPre.data ++ origin.data ++ htmlPost.data) := by
  cases ipResp with
  | error e => simp [hello] at h
  | ok resp =>
    cases hl : mapLookup resp "origin" with
    | none => simp [hello, hl] at h
    | some origin =>
      simp only [hello, hl] at h
      cases h
      refine ⟨rfl, origin, by simpa using hl, ?_⟩
      show strReplace HTML '\x7b' '\x7d' origin = _
      unfold strReplace replacePair
      rw [html_split]
      simp [joinWith]

/-- C5 witness: a concrete successful upstream response with origin
`7.7.7.7` yields the assembled page. -/
theorem C5_witness :
    ∃ origin,
      mapLookup ((Except.ok [("origin", "7.7.7.7")] :
        Except String (List (String × String))).toOption.getD []) "origin" = some origin ∧
      (strReplace HTML '\x7b' '\x7d' "7.7.7.7") =
        String.mk (htmlPre.data ++ origin.data ++ htmlPost.data) := by
  have h := C5_hello (.ok [("origin", "7.7.7.7")])
    ⟨"text/html", strReplace HTML '\x7b' '\x7d' "7.7.7.7"⟩ (by rfl)
  exact h.2

/-- C6: a failure of the outbound IP-echo call makes the greeting handler
panic, and a database failure makes the query handler panic; neither
handler converts such a failure into any reply at all. -/
theorem C6_failures_panic (e : String) :
    (hello (.error e)).isPanic = true ∧
    (∀ r, hello (.error e) ≠ .ok r) ∧
    (query (.error e)).isPanic = true ∧
    (∀ r, query (.error e) ≠ .ok r) := by
  refine ⟨rfl, ?_, rfl, ?_⟩ <;> intro r h <;> simp [hello, query] at h

/-- C7: on every request routed to the greeting handler the header-logging
middleware runs to completion — child span started, the JSON line of the
built header map emitted, span ended — before the greeting handler body;
requests routed to `/query` or `/health` produce no middleware event. -/
theorem C7_middleware (req : Request) :
    (routeOf req = .hello →
      ∃ out, logHeaders req.headers = HandlerResult.ok out ∧
        eventsOf req = [.spanStart "log headers", .logEmit out.line,
          .spanEnd "log headers", .helloBody]) ∧
    (routeOf req = .query → eventsOf req = [.queryBody]) ∧
    (routeOf req = .health → eventsOf req = [.healthBody]) := by
  by_cases h1 : firstSegment req = some "health"
  · refine ⟨?_, ?_, ?_⟩ <;> intro hr <;>
      simp [routeOf, eventsOf, dispatch, h1] at hr ⊢
  · by_cases h2 : req.method = .GET
    · by_cases h3 : firstSegment req = some "query"
      · refine ⟨?_, ?_, ?_⟩ <;> intro hr <;>
          simp [routeOf, eventsOf, dispatch, h1, h2, h3] at hr ⊢
      · refine ⟨?_, ?_, ?_⟩ <;> intro hr <;>
          simp only [routeOf, dispatch, h1, h2, h3] at hr ⊢ <;>
          simp at hr ⊢
        exact ⟨⟨buildHeaderMap req.headers, jsonObject (buildHeaderMap req.headers)⟩,
          rfl, by simp [eventsOf, dispatch, h1, h2, h3, middlewareEvents, logHeaders,
            serdeToString]⟩
    · refine ⟨?_, ?_, ?_⟩ <;> intro hr <;>
        simp [routeOf, dispatch, h1, h2] at hr ⊢

/-- C7 witness: a GET to `/` with a `host: hi` header logs the serialized
header map inside the span, then runs the greeting handler body. -/
theorem C7_witness :
    ∃ out, logHeaders [("host", [104, 105])] = HandlerResult.ok out ∧
      eventsOf ⟨.GET, [], [("host", [104, 105])]⟩ =
        [.spanStart "log headers", .logEmit out.line, .spanEnd "log headers",
         .helloBody] :=
  (C7_middleware ⟨.GET, [], [("host", [104, 105])]⟩).1 (by decide)

/-- C9: route dispatch is ordered health, query, greeting: any request whose
first path segment is `health` goes to the health handler regardless of
method (and so never to the greeting handler); a GET whose first segment is
`query` goes to the query handler; any other GET, whatever its path, goes
to the greeting handler. -/
theorem C9_routing (req : Request) :
    (firstSegment req = some "health" → routeOf req = .health) ∧
    (req.method = .GET → firstSegment req = some "query" →
      routeOf req = .query) ∧
    (req.method = .GET → firstSegment req ≠ some "health" →
      firstSegment req ≠ some "query" → routeOf req = .hello) := by
  refine ⟨?_, ?_, ?_⟩
  · intro h1
    simp [routeOf, dispatch, h1]
  · intro h2 h3
    have h1 : firstSegment req ≠ some "health" := by simp [h3]
    simp [routeOf, dispatch, h1, h2, h3]
  · intro h2 h1 h3
    simp [routeOf, dispatch, h1, h2, h3]

/-- C9 witness: a PUT to `/health/x` reaches health, a GET to `/query`
reaches query, and a GET to `/other/path` reaches the greeting handler. -/
theorem C9_witness :
    routeOf ⟨.PUT, ["health", "x"], []⟩ = .health ∧
    routeOf ⟨.GET, ["query"], []⟩ = .query ∧
    routeOf ⟨.GET, ["other", "path"], []⟩ = .hello :=
  ⟨(C9_routing ⟨.PUT, ["health", "x"], []⟩).1 (by decide),
   (C9_routing ⟨.GET, ["query"], []⟩).2.1 (by decide) (by decide),
   (C9_routing ⟨.GET, ["other", "path"], []⟩).2.2 (by decide) (by decide) (by decide)⟩

/-- C10: the header-logging middleware is total over all inbound header
maps: every header value is decoded (an invalid byte such as `0xFF` becomes
the replacement character rather than a rejection), and the serialization
of the resulting string-to-string map always yields the JSON line, so the
`unwrap` never panics. -/
theorem C10_log_total :
    (∀ headers, ∃ out, logHeaders headers = HandlerResult.ok out ∧
      out.map = buildHeaderMap headers ∧
      out.line = jsonObject (buildHeaderMap headers)) ∧
    utf8Lossy [0xFF] = String.mk [replacementChar] := by
  constructor
  · intro hs
    exact ⟨⟨buildHeaderMap hs, jsonObject (buildHeaderMap hs)⟩, rfl, rfl, rfl⟩
  · decide

/-- C8 counterexample: the claim says the server falls back to the
IPv4-only wildcard when dual-stack binding is unavailable; in the code the
fallback guards only the parse of the literal `::0`, so when the bind fails
the process panics instead of listening on the IPv4 wildcard. -/
theorem C8_counterexample :
    runServer none false = ServeOutcome.panicked ∧
    runServer none false ≠ ServeOutcome.listening (IpAddr.v4 0 0 0 0) 80 := by
  refine ⟨by decide, by decide⟩

/-- C8 (amended): the chosen listen address is always the IPv6 wildcard
`::` (the IPv4-wildcard branch guards only a parse failure of the literal
`::0`, which never occurs); when the bind succeeds the server listens on it
at the `--port` value, defaulting to 80, and when the bind fails the
process terminates instead of falling back. -/
theorem C8_listen (cliPort : Option Nat) (bindOk : Bool) :
    listenAddr = IpAddr.v6 [0, 0, 0, 0, 0, 0, 0, 0] ∧
    resolvedPort none = 80 ∧
    (∀ p, resolvedPort (some p) = p) ∧
    (bindOk = true → runServer cliPort bindOk =
      ServeOutcome.listening (IpAddr.v6 [0, 0, 0, 0, 0, 0, 0, 0])
        (resolvedPort cliPort)) ∧
    (bindOk = false → runServer cliPort bindOk = ServeOutcome.panicked) := by
  have hA : listenAddr = IpAddr.v6 [0, 0, 0, 0, 0, 0, 0, 0] := by decide
  refine ⟨hA, rfl, fun p => rfl, ?_, ?_⟩ <;> intro hb <;> subst hb <;>
    simp [runServer, serve, hA]

/-- C8 witness: with `--port 8080` and a successful bind the server listens
on `::` port 8080; with a failed bind it terminates. -/
theorem C8_witness :
    runServer (some 8080) true =
      ServeOutcome.listening (IpAddr.v6 [0, 0, 0, 0, 0, 0, 0, 0]) 8080 ∧
    runServer none false = ServeOutcome.panicked := by
  have h1 := (C8_listen (some 8080) true).2.2.2.1 rfl
  have h2 := (C8_listen none false).2.2.2.2 rfl
  exact ⟨h1, h2⟩

/-! ### C3: the query handler -/

instance : IsTotal Row byTotalDesc :=
  ⟨fun a b => le_total b.total_amount a.total_amount⟩

instance : IsTrans Row byTotalDesc :=
  ⟨fun _ _ _ h1 h2 => le_trans h2 h1⟩

/-- C3 counterexample: over a table with two rows of equal `total_amount`
the response is not ordered strictly descending by total; the claim's
"strictly descending" fails for every database state with tied totals. -/
theorem C3_counterexample :
    querySem [⟨"A", 0, 500⟩, ⟨"B", 0, 500⟩] =
      .ok ⟨[⟨"A", 0, 500⟩, ⟨"B", 0, 500⟩], "application/json"⟩ ∧
    ¬ List.Pairwise (fun a b : Bookings => b.total < a.total)
      [⟨"A", 0, 500⟩, ⟨"B", 0, 500⟩] := by
  refine ⟨by decide, by decide⟩

/-- C3 (amended): for every database state a successful `/query` response
is a JSON array of at most 10 `Bookings` records (id from `book_ref`, date
from `book_date`, total from `total_amount`), ordered descending — i.e.
non-increasing, strict only up to ties — by `total_amount`; and for any
table whose totals are exactly 500.00, 100.00 and 999.99, the first
returned record's total is 999.99. -/
theorem C3_query (table : List Row) :
    ∃ recs, querySem table = .ok ⟨recs, "application/json"⟩ ∧
      recs.length ≤ 10 ∧
      List.Pairwise (fun a b : Bookings => b.total ≤ a.total) recs ∧
      (∀ b ∈ recs, ∃ r ∈ table, b = toBooking r) ∧
      ((table.map Row.total_amount).Perm [500, 100, mkRat 99999 100] →
        recs.head?.map Bookings.total = some (mkRat 99999 100)) := by
  refine ⟨(sqlRows table).map toBooking, rfl, ?_, ?_, ?_, ?_⟩
  · simp [sqlRows, List.length_take]
  · have hs : List.Sorted byTotalDesc (List.insertionSort byTotalDesc table) :=
      List.sorted_insertionSort byTotalDesc table
    have ht : List.Pairwise byTotalDesc (sqlRows table) :=
      List.Pairwise.sublist (List.take_sublist 10 _) hs
    exact List.pairwise_map.mpr ht
  · intro b hb
    obtain ⟨r, hr, hrb⟩ := List.mem_map.mp hb
    refine ⟨r, ?_, hrb.symm⟩
    have hr2 : r ∈ List.insertionSort byTotalDesc table :=
      (List.take_sublist 10 _).mem hr
    exact (List.perm_insertionSort byTotalDesc table).mem_iff.mp hr2
  · intro hperm
    have hlen : table.length = 3 := by
      have := hperm.length_eq
      simpa using this
    have hp : (List.insertionSort byTotalDesc table).Perm table :=
      List.perm_insertionSort byTotalDesc table
    have hslen : (List.insertionSort byTotalDesc table).length = 3 :=
      hp.length_eq.trans hlen
    have htake : sqlRows table = List.insertionSort byTotalDesc table := by
      unfold sqlRows
      exact List.take_of_length_le (by omega)
    have hs : List.Sorted byTotalDesc (List.insertionSort byTotalDesc table) :=
      List.sorted_insertionSort byTotalDesc table
    have hptot : ((List.insertionSort byTotalDesc table).map Row.total_amount).Perm
        [500, 100, mkRat 99999 100] :=
      (hp.map Row.total_amount).trans hperm
    rw [htake]
    cases hsl : List.insertionSort byTotalDesc table with
    | nil => rw [hsl] at hslen; simp at hslen
    | cons hd tl =>
      rw [hsl] at hs hptot
      have hhd : ∀ x ∈ tl, x.total_amount ≤ hd.total_amount :=
        fun x hx => List.rel_of_sorted_cons hs x hx
      have hmax : mkRat 99999 100 ∈ (hd :: tl).map Row.total_amount :=
        hptot.mem_iff.mpr (by simp)
      have hhd_mem : hd.total_amount ∈ ([500, 100, mkRat 99999 100] : List ℚ) :=
        hptot.mem_iff.mp (by simp)
      have hle : mkRat 99999 100 ≤ hd.total_amount := by
        obtain ⟨x, hx, hxe⟩ := List.mem_map.mp hmax
        rcases List.mem_cons.mp hx with hxh | hxt
        · exact le_of_eq (by rw [← hxe, hxh])
        · rw [← hxe]
          exact hhd x hxt
      have hge : hd.total_amount ≤ mkRat 99999 100 := by
        simp only [List.mem_cons, List.mem_singleton,
          List.not_mem_nil, or_false] at hhd_mem
        rcases hhd_mem with h | h | h
        · rw [h]; decide
        · rw [h]; decide
        · exact le_of_eq h
      have : hd.total_amount = mkRat 99999 100 := le_antisymm hge hle
      simp [toBooking, this]

/-- C3 witness: the fixture table with totals 500.00, 100.00 and 999.99
returns 999.99 first. -/
theorem C3_witness :
    ∃ recs, querySem [⟨"A", 0, 500⟩, ⟨"B", 0, 100⟩, ⟨"C", 0, mkRat 99999 100⟩] =
        .ok ⟨recs, "application/json"⟩ ∧
      recs.head?.map Bookings.total = some (mkRat 99999 100) := by
  obtain ⟨recs, h1, _, _, _, h5⟩ :=
    C3_query [⟨"A", 0, 500⟩, ⟨"B", 0, 100⟩, ⟨"C", 0, mkRat 99999 100⟩]
  exact ⟨recs, h1, h5 (by decide)⟩

end RustOtel

